import Mathlib

/-!
# Verification of the industrial process analytics reconciliation engine

A shallow embedding, in Lean 4, of the reconciliation and cursor-advancement
core of the `industrial-process-analytics-system` repository:

* `processing/process_decoder.py` — the bit-field status decoder,
* `database/state_manager.py` — the cursor store,
* `database/query_executor.py` — the query-execution boundary,
* `processing/equipment_data_handler.py` — sample fetch and combined-record writer,
* `processing/data_processor.py` — the reconciliation driver,
* `main.py` — startup wiring.

Timestamps are modelled as natural numbers counting microseconds, so that
Python's `datetime` ordering becomes `Nat` ordering and
`strftime('%Y-%m-%d %H:%M:%S')` becomes truncation to whole seconds.
Database tables are lists of rows; the query executor's failure modes are
modelled by explicit success flags.  Python exceptions are modelled with
`Except`, where the error value carries the state at the raise point
(in-place mutations performed before the raise survive the exception).
-/

/-! ## Python values reaching the decoder

The decoder receives `status_field` values from the database: SQL `NULL`
(Python `None`), integers, or strings.  `int(·)` applied to a string is
modelled by `pyInt`. -/

inductive BitVal where
  | null : BitVal
  | intv : Int → BitVal
  | strv : String → BitVal
deriving DecidableEq, Repr

/-- Model of Python `int(s)` for a string `s`: strip whitespace, then parse
an optionally signed decimal integer. -/
def pyInt (s : String) : Option Int :=
  s.trim.toInt?

/-- Python `1 << k`, i.e. `2 ^ k`, as an integer. -/
def pow2 (k : Nat) : Int :=
  ((2 ^ k : Nat) : Int)

/-- Python `x & (1 << k) != 0`: bit `k` (0-indexed) of `x` is set.
`Int.land` gives Python's two's-complement semantics for negative
values. -/
def bitSet (n : Int) (k : Nat) : Bool :=
  Int.land n (pow2 k) != 0

/-! ## `process_decoder.py` -/

/-- The `STATUS_BITS` dictionary of `process_decoder.py`, defined for bit
positions 1..6. -/
def STATUS_BITS (bit_position : Nat) : Option String :=
  match bit_position with
  | 1 => some "start_phase_1"
  | 2 => some "start_phase_2"
  | 3 => some "start_phase_3"
  | 4 => some "start_phase_4"
  | 5 => some "start_phase_5"
  | 6 => some "start_phase_6"
  | _ => none

/-- The loop of `decode_status_current` over a parsed integer: scan bit
positions 6 down to 1, return the phase of the first (highest) set bit,
else fall through to `'no_status'`.  The `dict.get` with `unknown_...`
default never fires because `STATUS_BITS` covers 1..6. -/
def decodeCurrentLoop (status_int : Int) : String :=
  if bitSet status_int 5 then (STATUS_BITS 6).getD "unknown_status_bit_6"
  else if bitSet status_int 4 then (STATUS_BITS 5).getD "unknown_status_bit_5"
  else if bitSet status_int 3 then (STATUS_BITS 4).getD "unknown_status_bit_4"
  else if bitSet status_int 2 then (STATUS_BITS 3).getD "unknown_status_bit_3"
  else if bitSet status_int 1 then (STATUS_BITS 2).getD "unknown_status_bit_2"
  else if bitSet status_int 0 then (STATUS_BITS 1).getD "unknown_status_bit_1"
  else "no_status"

/-- `decode_status_current` of `process_decoder.py`.  A string input is not
`== 0` in Python, so only `None` and integer `0` short-circuit to
`'no_status'`; a string that `int(·)` cannot parse yields
`'invalid_value'`. -/
def decode_status_current (status_value : BitVal) : String :=
  match status_value with
  | .null => "no_status"
  | .intv n => if n = 0 then "no_status" else decodeCurrentLoop n
  | .strv s =>
    match pyInt s with
    | none => "invalid_value"
    | some n => decodeCurrentLoop n

/-- The loop of `decode_status_complete` over a parsed integer: collect the
phases of all set bits among positions 1..6 in ascending order. -/
def decodeCompleteActive (status_int : Int) : List String :=
  (if bitSet status_int 0 then [(STATUS_BITS 1).getD "unknown_status_bit_1"] else []) ++
  (if bitSet status_int 1 then [(STATUS_BITS 2).getD "unknown_status_bit_2"] else []) ++
  (if bitSet status_int 2 then [(STATUS_BITS 3).getD "unknown_status_bit_3"] else []) ++
  (if bitSet status_int 3 then [(STATUS_BITS 4).getD "unknown_status_bit_4"] else []) ++
  (if bitSet status_int 4 then [(STATUS_BITS 5).getD "unknown_status_bit_5"] else []) ++
  (if bitSet status_int 5 then [(STATUS_BITS 6).getD "unknown_status_bit_6"] else [])

/-- `decode_status_complete` of `process_decoder.py`: the active phases of
all set bits 1..6 joined with spaces, `'no_states'` when none are set. -/
def decode_status_complete (status_value : BitVal) : String :=
  match status_value with
  | .null => "no_states"
  | .intv n =>
    if n = 0 then "no_states"
    else
      let active := decodeCompleteActive n
      if active = [] then "no_states" else String.intercalate " " active
  | .strv s =>
    match pyInt s with
    | none => "invalid_value"
    | some n =>
      let active := decodeCompleteActive n
      if active = [] then "no_states" else String.intercalate " " active

/-! ## Claim-side decoder specifications

These definitions follow the wording of the specification ("the phase of
the highest set bit among positions 1–6", "the ascending-bit-order list of
set phase names"), to be compared with the source-derived definitions
above. -/

/-- The phase name of a bit position, per the spec's phase naming. -/
def phaseName (k : Nat) : String :=
  match k with
  | 1 => "start_phase_1"
  | 2 => "start_phase_2"
  | 3 => "start_phase_3"
  | 4 => "start_phase_4"
  | 5 => "start_phase_5"
  | 6 => "start_phase_6"
  | _ => "unknown"

/-- The set bit positions of `n` among 1..6, in ascending order. -/
def setBitsAsc (n : Int) : List Nat :=
  [1, 2, 3, 4, 5, 6].filter (fun k => bitSet n (k - 1))

/-- The highest set bit of `n` among positions 1..6, if any. -/
def highestSetBit (n : Int) : Option Nat :=
  [6, 5, 4, 3, 2, 1].find? (fun k => bitSet n (k - 1))

/-- `decode_current` as the spec words it: `no_status` for null/zero or when
no bit in 1..6 is set, `invalid_value` on parse failure, otherwise the phase
of the highest set bit among positions 1..6. -/
def specDecodeCurrent (v : BitVal) : String :=
  match v with
  | .null => "no_status"
  | .intv n =>
    if n = 0 then "no_status"
    else
      match highestSetBit n with
      | none => "no_status"
      | some k => phaseName k
  | .strv s =>
    match pyInt s with
    | none => "invalid_value"
    | some n =>
      match highestSetBit n with
      | none => "no_status"
      | some k => phaseName k

/-- `decode_history` as the spec words it: the ascending-bit-order phase
names of all set bits among positions 1..6, joined with spaces; `no_states`
for null/zero or when none are set; `invalid_value` on parse failure. -/
def specDecodeHistory (v : BitVal) : String :=
  match v with
  | .null => "no_states"
  | .intv n =>
    if n = 0 then "no_states"
    else
      match setBitsAsc n with
      | [] => "no_states"
      | ks => String.intercalate " " (ks.map phaseName)
  | .strv s =>
    match pyInt s with
    | none => "invalid_value"
    | some n =>
      match setBitsAsc n with
      | [] => "no_states"
      | ks => String.intercalate " " (ks.map phaseName)

lemma decodeCurrentLoop_eq_spec (n : Int) :
    decodeCurrentLoop n =
      match highestSetBit n with
      | none => "no_status"
      | some k => phaseName k := by
  cases h5 : bitSet n 5 <;> cases h4 : bitSet n 4 <;> cases h3 : bitSet n 3 <;>
    cases h2 : bitSet n 2 <;> cases h1 : bitSet n 1 <;> cases h0 : bitSet n 0 <;>
      simp [decodeCurrentLoop, highestSetBit, phaseName, STATUS_BITS,
        List.find?, h5, h4, h3, h2, h1, h0]

lemma decodeCompleteActive_eq_spec (n : Int) :
    decodeCompleteActive n = (setBitsAsc n).map phaseName := by
  cases h5 : bitSet n 5 <;> cases h4 : bitSet n 4 <;> cases h3 : bitSet n 3 <;>
    cases h2 : bitSet n 2 <;> cases h1 : bitSet n 1 <;> cases h0 : bitSet n 0 <;>
      simp [decodeCompleteActive, setBitsAsc, phaseName, STATUS_BITS,
        h5, h4, h3, h2, h1, h0]

/-- C5: `decode_status_current` agrees everywhere with the spec's
description (highest set bit among positions 1..6; `no_status` for
null/zero/no-bits; `invalid_value` on parse failure), and in particular
`decode_current(64) = no_status` since bits beyond position 6 are
ignored. -/
theorem decode_current_matches_spec :
    (∀ v : BitVal, decode_status_current v = specDecodeCurrent v) ∧
      decode_status_current (.intv 64) = "no_status" := by
  constructor
  · intro v
    cases v with
    | null => rfl
    | intv n =>
      simp only [decode_status_current, specDecodeCurrent]
      by_cases h : n = 0
      · simp [h]
      · simp [h, decodeCurrentLoop_eq_spec n]
    | strv s =>
      simp only [decode_status_current, specDecodeCurrent]
      cases h : pyInt s with
      | none => simp
      | some n => simp [decodeCurrentLoop_eq_spec n]
  · decide

/-- C6: `decode_status_complete` agrees everywhere with the spec's
description (phase names of all set bits among positions 1..6 in ascending
bit order, joined; `no_states` for null/zero/no-bits, bits beyond position
6 masked out; `invalid_value` on parse failure), and in particular
`decode_history(64) = no_states`. -/
theorem decode_history_matches_spec :
    (∀ v : BitVal, decode_status_complete v = specDecodeHistory v) ∧
      decode_status_complete (.intv 64) = "no_states" := by
  constructor
  · intro v
    cases v with
    | null => rfl
    | intv n =>
      simp only [decode_status_complete, specDecodeHistory]
      by_cases h : n = 0
      · simp [h]
      · simp only [h, if_false, decodeCompleteActive_eq_spec n]
        cases hs : setBitsAsc n <;> simp [hs]
    | strv s =>
      simp only [decode_status_complete, specDecodeHistory]
      cases h : pyInt s with
      | none => simp
      | some n =>
        simp only [decodeCompleteActive_eq_spec n]
        cases hs : setBitsAsc n <;> simp [hs]
  · decide

/-! ## Data model

Timestamps are `Nat` microseconds; `datetime` comparison is `Nat`
comparison, `timedelta(minutes = m)` is `m * 60 * 1000000`, and
`strftime('%Y-%m-%d %H:%M:%S')` is truncation to whole seconds (injective
on second-precision instants). -/

/-- Microseconds in one second. -/
def usecPerSec : Nat := 1000000

/-- `timedelta(minutes=5)` in microseconds. -/
def fiveMinutes : Nat := 5 * 60 * usecPerSec

/-- `timedelta(minutes=10)` in microseconds. -/
def tenMinutes : Nat := 10 * 60 * usecPerSec

/-- `conveyor_time.strftime('%Y-%m-%d %H:%M:%S')`: the second-truncated
rendering of a timestamp, modelled by its whole-second count. -/
def timeStr (t : Nat) : Nat := t / usecPerSec

/-- The `strftime('%Y-%m-%d %H:%M:%S')` rendering read back as an
instant: the timestamp truncated to whole seconds (what the cursor
store's upsert actually writes durably). -/
def truncToSec (t : Nat) : Nat := timeStr t * usecPerSec

/-- A `tb_product_scanner` row: `scanner_timestamp, product_code,
operator_id, work_order`. -/
structure CodeEvent where
  ts : Nat
  product_code : String
  operator_id : String
  work_order : String
deriving DecidableEq, Repr

/-- A `tb_equipment_records` row as selected by the fetcher:
`status_field` and the combined `TIMESTAMP(date_field, time_field)`. -/
structure EquipmentRecord where
  status : BitVal
  ts : Nat
deriving DecidableEq, Repr

/-- A `tb_combined_data` row as written by the combined-record writer.
(The writer's column names `scanner_timestamp`/`equipment_timestamp`/
`conveyor_timestamp` and the stale DDL in `schema_manager.py` — which is
never invoked from `main.py` — differ in spelling; the store is modelled
at the logical level with the unique key over the three timestamps, as
both agree on.) -/
structure CombinedRecord where
  scanner_ts : Nat
  equipment_ts : Nat
  conveyor_ts : Nat
  status : BitVal
  process_status : String
  process_complete_status : String
  product_code : String
  code_description : String
  operator_id : String
  work_order : String
deriving DecidableEq, Repr

/-- The unique key of `tb_combined_data`: the three timestamps. -/
def CombinedRecord.key (r : CombinedRecord) : Nat × Nat × Nat :=
  (r.scanner_ts, r.equipment_ts, r.conveyor_ts)

/-- A Python dict keyed by strings (the shape returned by
`get_equipment_data_by_time_range`). -/
def EquipmentData := List (String × List EquipmentRecord)

/-- Python dict indexing `d[k]`, successful lookup only; a missing key is
the `KeyError` case (`none`). -/
def dictLookup (k : String) : List (String × List EquipmentRecord) → Option (List EquipmentRecord)
  | [] => none
  | (k', v) :: rest => if k' = k then some v else dictLookup k rest

/-! ## `query_executor.py` -/

/-- `QueryExecutor.execute_many` restricted to the one statement the core
issues through it (the combined-data `INSERT IGNORE`): an empty parameter
list returns `True` before any connection is attempted; otherwise the
batch is applied row by row if the connection/execution succeeds
(`connOk`), and reports failure leaving the table unchanged otherwise. -/
def execute_many (connOk : Bool)
    (apply : List CombinedRecord → CombinedRecord → List CombinedRecord)
    (table : List CombinedRecord) (params_list : List CombinedRecord) :
    Bool × List CombinedRecord :=
  if params_list.isEmpty then (true, table)
  else if connOk then (true, params_list.foldl apply table)
  else (false, table)

/-- One row of the combined-data `INSERT IGNORE`: a row whose unique key is
already present is silently skipped, otherwise it is appended. -/
def insertIgnore (table : List CombinedRecord) (r : CombinedRecord) : List CombinedRecord :=
  if table.any (fun x => x.key = r.key) then table else table ++ [r]

/-! ## `equipment_data_handler.py` -/

/-- Modelled from the spec: the in-memory product-description catalog
`database.descriptions_dict.descriptions`, whose module is absent from the
sources (only its import and `dict.get` use appear).  Its contents do not
affect any claim, so it is modelled as an abstract empty catalog. -/
def descriptions (_product_code : String) : Option String :=
  none

/-- `EquipmentDataHandler.get_code_description`:
`descriptions.get(product_code, "")`. -/
def get_code_description (product_code : String) : String :=
  (descriptions product_code).getD ""

/-- `EquipmentDataHandler.get_equipment_data_by_time_range`: rows with
`start_time < ts <= end_time`, ascending, packaged in a dict under the key
`'status_records'`. -/
def get_equipment_data_by_time_range (equipment : List EquipmentRecord)
    (start_time end_time : Nat) : EquipmentData :=
  [("status_records",
    equipment.filter (fun r => start_time < r.ts && r.ts ≤ end_time))]

/-- The `combined_data` dict handed to the writer. -/
structure CombinedData where
  conveyor_time : Nat
  code_data : CodeEvent
  equipment_data : EquipmentData

/-- The row built by the writer's loop for one equipment record. -/
def mkCombinedRecord (conveyor_time : Nat) (code : CodeEvent)
    (er : EquipmentRecord) : CombinedRecord :=
  { scanner_ts := code.ts
    equipment_ts := er.ts
    conveyor_ts := conveyor_time
    status := er.status
    process_status := decode_status_current er.status
    process_complete_status := decode_status_complete er.status
    product_code := code.product_code
    code_description := get_code_description code.product_code
    operator_id := code.operator_id
    work_order := code.work_order }

/-- `EquipmentDataHandler.save_combined_data_centered_conveyor`: reads
`equipment_data['status_records']` (a missing key would raise `KeyError`),
returns `True` immediately when there are no records, otherwise builds the
batch and issues the `INSERT IGNORE` through `execute_many`. -/
def save_combined_data_centered_conveyor (connOk : Bool)
    (table : List CombinedRecord) (combined_data : CombinedData) :
    Except String (Bool × List CombinedRecord) :=
  match dictLookup "status_records" combined_data.equipment_data with
  | none => .error "KeyError: status_records"
  | some status_records =>
    if status_records.isEmpty then .ok (true, table)
    else
      let params := status_records.map
        (mkCombinedRecord combined_data.conveyor_time combined_data.code_data)
      .ok (execute_many connOk insertIgnore table params)

/-! ## `state_manager.py`: the cursor store -/

/-- `StateManager.persist_last_processed_time`: a falsy argument returns
`False` without touching the store; otherwise the value is serialized
with `strftime('%Y-%m-%d %H:%M:%S')` (lines 101-102) — truncated to
whole seconds — and the upsert of the singleton row either succeeds (the
durable cursor becomes the truncated value) or fails (reported as
`False`, durable cursor unchanged).  `persistOk` models the outcome of
`execute_update` for a given written value. -/
def persist_last_processed_time (persistOk : Nat → Bool) (db : Option Nat) :
    Option Nat → Bool × Option Nat
  | none => (false, db)
  | some t =>
    if persistOk (truncToSec t) then (true, some (truncToSec t)) else (false, db)

/-- `StateManager.update_last_processed_time`: persist first (which writes
the second-truncated rendering); only on success set the in-memory cached
value, to the full-precision instant.  Returns
`(success, in-memory cursor, durable cursor)`. -/
def update_last_processed_time (persistOk : Nat → Bool)
    (mem db : Option Nat) (new_time : Nat) : Bool × Option Nat × Option Nat :=
  let pr := persist_last_processed_time persistOk db (some new_time)
  if pr.1 then (true, some new_time, pr.2) else (false, mem, pr.2)

/-- `MAX(...)` over a list of timestamps (`NULL`, i.e. `none`, when the
table is empty). -/
def listMax : List Nat → Option Nat
  | [] => none
  | t :: ts =>
    match listMax ts with
    | none => some t
    | some m => some (Nat.max t m)

/-- `StateManager.get_last_processed_time_from_conveyor_data`:
`MAX(timestamp_conveyor) FROM tb_combined_data`, the trigger-derived
maximum. -/
def get_last_processed_time_from_conveyor_data (combined : List CombinedRecord) : Option Nat :=
  listMax (combined.map (fun r => r.conveyor_ts))

/-- `StateManager.get_last_processed_time_from_code_data`:
`MAX(code_timestamp) FROM tb_combined_data`, the code-derived maximum. -/
def get_last_processed_time_from_code_data (combined : List CombinedRecord) : Option Nat :=
  listMax (combined.map (fun r => r.scanner_ts))

/-- `StateManager.initialize_from_existing_data`.  Input: the persist
outcome oracle, the in-memory cursor, the durable cursor, and the combined
table.  Output: `(returned value, in-memory cursor, durable cursor)`.
The source ignores the result of `persist_last_processed_time` here. -/
def initialize_from_existing_data (persistOk : Nat → Bool)
    (mem db : Option Nat) (combined : List CombinedRecord) :
    Option Nat × Option Nat × Option Nat :=
  let last_conveyor_time := get_last_processed_time_from_conveyor_data combined
  let inconsistent :=
    match mem, last_conveyor_time with
    | some c, some m => decide (m < c)
    | _, _ => false
  if inconsistent then
    match last_conveyor_time with
    | some m =>
      let pr := persist_last_processed_time persistOk db (some m)
      (some m, some m, pr.2)
    | none => (none, mem, db)
  else
    match get_last_processed_time_from_conveyor_data combined with
    | some m =>
      let pr := persist_last_processed_time persistOk db (some m)
      (some m, some m, pr.2)
    | none =>
      match get_last_processed_time_from_code_data combined with
      | some k =>
        let pr := persist_last_processed_time persistOk db (some k)
        (some k, some k, pr.2)
      | none => (none, mem, db)

/-! ## Timestamp parsing (`datetime.strptime` for the two accepted formats)

`get_last_processed_time` tries `'%Y-%m-%d %H:%M:%S'` and, on
`ValueError`, `'%Y-%m-%d %H:%M:%S.%f'`.  The two formats are modelled by a
character-level parser producing the microsecond encoding of the parsed
instant. -/

/-- Consume a maximal non-empty run of decimal digits, returning their
value, their count and the rest of the input. -/
def takeDigits : List Char → Option (Nat × Nat × List Char)
  | [] => none
  | c :: cs =>
    if c.isDigit then
      let rec go : List Char → Nat → Nat → Nat × Nat × List Char
        | [], acc, cnt => (acc, cnt, [])
        | d :: ds, acc, cnt =>
          if d.isDigit then go ds (acc * 10 + (d.toNat - 48)) (cnt + 1)
          else (acc, cnt, d :: ds)
      some (go (c :: cs) 0 0)
    else none

/-- Consume one expected literal character. -/
def expectChar (c : Char) : List Char → Option (List Char)
  | [] => none
  | d :: ds => if d = c then some ds else none

/-- Encode a broken-down instant as microseconds on an idealized calendar
(months and days given fixed radixes); order-preserving, which is all the
engine uses. -/
def encodeInstant (y mo d h mi s : Nat) : Nat :=
  ((((y * 13 + mo) * 32 + d) * 24 + h) * 60 + mi) * 60 * usecPerSec + s * usecPerSec

/-- Parse the common `'%Y-%m-%d %H:%M:%S'` prefix, validating field
ranges as `strptime` does; returns the encoded instant and the rest. -/
def parseDateTimeCore (cs : List Char) : Option (Nat × List Char) := do
  let (y, _, cs) ← takeDigits cs
  let cs ← expectChar '-' cs
  let (mo, _, cs) ← takeDigits cs
  let cs ← expectChar '-' cs
  let (d, _, cs) ← takeDigits cs
  let cs ← expectChar ' ' cs
  let (h, _, cs) ← takeDigits cs
  let cs ← expectChar ':' cs
  let (mi, _, cs) ← takeDigits cs
  let cs ← expectChar ':' cs
  let (s, _, cs) ← takeDigits cs
  if 1 ≤ mo ∧ mo ≤ 12 ∧ 1 ≤ d ∧ d ≤ 31 ∧ h ≤ 23 ∧ mi ≤ 59 ∧ s ≤ 61 then
    some (encodeInstant y mo d h mi s, cs)
  else none

/-- `datetime.strptime(s, '%Y-%m-%d %H:%M:%S')`: the full-seconds format,
requiring the whole string to be consumed. -/
def parseFullSeconds (s : String) : Option Nat :=
  match parseDateTimeCore s.data with
  | some (t, []) => some t
  | _ => none

/-- `datetime.strptime(s, '%Y-%m-%d %H:%M:%S.%f')`: the fractional-seconds
format — the core, a dot, then 1..6 fractional digits ending the string;
`%f` right-pads to microseconds. -/
def parseFracSeconds (s : String) : Option Nat := do
  let (t, cs) ← parseDateTimeCore s.data
  let cs ← expectChar '.' cs
  let (f, cnt, cs) ← takeDigits cs
  if cs = [] ∧ 1 ≤ cnt ∧ cnt ≤ 6 then some (t + f * 10 ^ (6 - cnt))
  else none

/-- The value found in `tb_processing_state.last_processed_time`: either
already a structured instant (the driver returns it as is) or raw text
that must be parsed. -/
inductive StoredVal where
  | dt (t : Nat)
  | str (s : String)
deriving DecidableEq, Repr

/-- `StateManager.get_last_processed_time`: a missing row or `NULL` value
yields `none`; a textual value is parsed with the full-seconds format
first and the fractional-seconds format second; if neither parses, the
`ValueError` escapes (the `.error` case). -/
def get_last_processed_time : Option StoredVal → Except String (Option Nat)
  | none => .ok none
  | some (.dt t) => .ok (some t)
  | some (.str s) =>
    match parseFullSeconds s with
    | some t => .ok (some t)
    | none =>
      match parseFracSeconds s with
      | some t => .ok (some t)
      | none => .error "ValueError: unparseable last_processed_time"

/-- `ProcessingSystem.__init__` (via `StateManager.__init__`, which reads
the cursor at construction): the `ValueError` is not caught anywhere in
`__init__` or `main()`, so a malformed stored cursor prevents the system
object from being constructed at all. -/
def processing_system_init (stored : Option StoredVal) :
    Except String (Option Nat) :=
  match get_last_processed_time stored with
  | .error e => .error e
  | .ok cursor => .ok cursor

/-! ## `data_processor.py`: the reconciliation driver -/

/-- Log lines the claims reason about. -/
inductive LogEntry where
  | warnNoCode (conveyor_time : Nat)
  | warnIncomplete (prev next : Nat)
  | errSaveFailed (conveyor_time : Nat)
  | errCycleAborted
deriving DecidableEq, Repr

/-- The mutable state of one driver instance: the state manager's
in-memory cursor, the durable cursor row, the combined-data table, the
`requests_without_code` set (of second-truncated timestamps) and the log. -/
structure ProcState where
  cursor_mem : Option Nat
  cursor_db : Option Nat
  combined : List CombinedRecord
  warned : List Nat
  log : List LogEntry
deriving DecidableEq, Repr

/-- The external world for one poll cycle: source tables and the outcome
oracles for writes (`persistOk` for the cursor upsert, `connOk` for the
combined-data batch insert) and for the trigger fetch (`fetchOk`). -/
structure Env where
  conveyor : List Nat
  scanner : List CodeEvent
  equipment : List EquipmentRecord
  today : Nat
  fetchOk : Bool
  connOk : Bool
  persistOk : Nat → Bool

/-- Day index of a timestamp (models `DATE(·)` / `CURDATE()`). -/
def dayOf (t : Nat) : Nat := t / (86400 * usecPerSec)

/-- Insertion sort by `≤` (models the queries' `ORDER BY ... ASC`). -/
def sortTs (l : List Nat) : List Nat :=
  l.insertionSort (fun a b => a ≤ b)

/-- `DataProcessor._search_corresponding_code`: the earliest scanner row in
`(conveyor_time, search_end_time]` where the end is the next trigger if
given, else `conveyor_time + 10 minutes` (`ORDER BY ts ASC LIMIT 1`). -/
def search_corresponding_code (scanner : List CodeEvent)
    (conveyor_time : Nat) (next_conveyor_time : Option Nat) : Option CodeEvent :=
  let search_end_time := next_conveyor_time.getD (conveyor_time + tenMinutes)
  (scanner.filter (fun e => conveyor_time < e.ts && e.ts ≤ search_end_time)).foldl
    (fun acc e =>
      match acc with
      | none => some e
      | some a => if e.ts < a.ts then some e else some a)
    none

/-- Python `pat in s` for a nonempty pattern. -/
def strContains (s pat : String) : Bool :=
  (s.splitOn pat).length > 1

/-- `DataProcessor._verify_complete_cycle`: rows of the combined table for
the previous trigger (bounded by the next trigger when given), checked for
a terminal marker in `process_status` or `process_complete_status`
(Python's truthiness of `complete_status` is emptiness here). -/
def verify_complete_cycle (combined : List CombinedRecord)
    (conveyor_time : Nat) (next_conveyor_time : Option Nat) : Bool :=
  let rows : List CombinedRecord :=
    match next_conveyor_time with
    | some nt => combined.filter
        (fun r => r.conveyor_ts = conveyor_time && r.equipment_ts ≤ nt)
    | none => combined.filter (fun r => r.conveyor_ts = conveyor_time)
  if rows.isEmpty then false
  else rows.any (fun r =>
    strContains r.process_status "complete_phase_2" ||
    strContains r.process_status "process_complete" ||
    (r.process_complete_status ≠ "" &&
      (strContains r.process_complete_status "complete_phase_2" ||
       strContains r.process_complete_status "process_complete")))

/-- Line 216 of `data_processor.py`: advance the cursor through the cursor
store's `update` (its boolean result is ignored there). -/
def advanceCursor (persistOk : Nat → Bool) (st : ProcState) (conveyor_time : Nat) : ProcState :=
  let u := update_last_processed_time persistOk st.cursor_mem st.cursor_db conveyor_time
  { st with cursor_mem := u.2.1, cursor_db := u.2.2 }

/-- The current event's timestamp, `conveyor_request[0]` at `index`. -/
def eventTimeOf (all_requests : List Nat) (index : Nat) : Nat :=
  all_requests.getD index 0

/-- Lines 236-249 (`_get_next_conveyor_time`): the next trigger's
timestamp, when one exists. -/
def nextTimeOf (all_requests : List Nat) (index : Nat) : Option Nat :=
  if index < all_requests.length - 1 then some (all_requests.getD (index + 1) 0)
  else none

/-- Lines 218-234 (`_calculate_end_time`): the next trigger's timestamp,
else the current trigger plus 10 minutes. -/
def endTimeOf (all_requests : List Nat) (index : Nat) : Nat :=
  if index < all_requests.length - 1 then all_requests.getD (index + 1) 0
  else eventTimeOf all_requests index + tenMinutes

/-- Lines 169-178: when not the first request, check the previous cycle and
log a warning if it is not complete (non-fatal, observability only). -/
def validatePrev (st : ProcState) (all_requests : List Nat) (index : Nat) : ProcState :=
  if index > 0 then
    if verify_complete_cycle st.combined (all_requests.getD (index - 1) 0)
        (some (eventTimeOf all_requests index)) then st
    else { st with log := st.log ++
      [.warnIncomplete (all_requests.getD (index - 1) 0) (eventTimeOf all_requests index)] }
  else st

/-- Lines 186-193: no code found — warn once per distinct second-truncated
timestamp string and record it in `requests_without_code`; return without
touching cursor or table. -/
def handleNoCode (st : ProcState) (conveyor_time : Nat) : ProcState :=
  if timeStr conveyor_time ∈ st.warned then st
  else { st with warned := st.warned ++ [timeStr conveyor_time],
                 log := st.log ++ [.warnNoCode conveyor_time] }

/-- Lines 194-216: code found.  The timestamp is removed from the no-code
set, equipment data is fetched, and then `_log_processing_info` indexes
`equipment_data['v24_records']` — a key the fetcher (which returns
`'status_records'`) never produces, so a `KeyError` is raised there; the
error value carries the state as mutated so far.  The remaining source
lines (save if records, advance cursor only on success or when there is
nothing to save) are embedded as written. -/
def handleCodeFound (env : Env) (st : ProcState) (conveyor_time : Nat)
    (code_data : CodeEvent) (end_time : Nat) : Except (String × ProcState) ProcState :=
  let st := { st with warned := st.warned.filter (fun ts => ts ≠ timeStr conveyor_time) }
  let equipment_data := get_equipment_data_by_time_range env.equipment conveyor_time end_time
  match dictLookup "v24_records" equipment_data with
  | none => .error ("KeyError: v24_records", st)
  | some v24_records =>
    if v24_records.isEmpty then .ok (advanceCursor env.persistOk st conveyor_time)
    else
      match save_combined_data_centered_conveyor env.connOk st.combined
          { conveyor_time := conveyor_time, code_data := code_data,
            equipment_data := equipment_data } with
      | .error e => .error (e, st)
      | .ok (saved, table) =>
        if saved then
          advanceCursor env.persistOk { st with combined := table } conveyor_time |> .ok
        else
          .ok { st with combined := table,
                        log := st.log ++ [.errSaveFailed conveyor_time] }

/-- `DataProcessor._process_individual_conveyor_request`. -/
def process_individual_conveyor_request (env : Env) (st : ProcState)
    (all_requests : List Nat) (index : Nat) : Except (String × ProcState) ProcState :=
  match search_corresponding_code env.scanner (eventTimeOf all_requests index)
      (nextTimeOf all_requests index) with
  | none => .ok (handleNoCode (validatePrev st all_requests index)
      (eventTimeOf all_requests index))
  | some code_data => handleCodeFound env (validatePrev st all_requests index)
      (eventTimeOf all_requests index) code_data (endTimeOf all_requests index)

/-- `DataProcessor.get_new_conveyor_requests`: with no cursor, today's
triggers in ascending order; with a cursor, triggers after `cursor − 5
minutes` in ascending order, then filtered to `ts ≥ cursor`.  A failed
fetch yields the empty list. -/
def get_new_conveyor_requests (env : Env) (st : ProcState) : List Nat :=
  if env.fetchOk then
    match st.cursor_mem with
    | none => sortTs (env.conveyor.filter (fun t => dayOf t = env.today))
    | some c =>
      let rows := sortTs (env.conveyor.filter (fun t => c - fiveMinutes < t))
      rows.filter (fun t => c ≤ t)
  else []

/-- One accumulation step of the per-event loop: once a cycle has aborted
(`false` flag), remaining events are not processed; an exception ends the
cycle but keeps the state mutated so far (it is caught and logged in
`main.py`'s cycle handler). -/
def cycleStep (env : Env) (reqs : List Nat) (acc : ProcState × Bool) (i : Nat) :
    ProcState × Bool :=
  match acc with
  | (st, false) => (st, false)
  | (st, true) =>
    match process_individual_conveyor_request env st reqs i with
    | .ok st' => (st', true)
    | .error (_, st') => ({ st' with log := st'.log ++ [.errCycleAborted] }, false)

/-- `DataProcessor.process_new_conveyor_requests` over an already-fetched
list. -/
def process_new_conveyor_requests (env : Env) (st : ProcState) (reqs : List Nat) : ProcState :=
  ((List.range reqs.length).foldl (cycleStep env reqs) (st, true)).1

/-- One full poll cycle of the driver: fetch, filter, process in order. -/
def process_cycle (env : Env) (st : ProcState) : ProcState :=
  process_new_conveyor_requests env st (get_new_conveyor_requests env st)

/-! ## Claim theorems -/

/-- C10: the combined-record writer reports success for an empty batch —
`save_combined_data_centered_conveyor` returns `True` (table untouched)
when the equipment data holds no status records, and `execute_many`
returns `True` for an empty parameter list without touching the table or
consulting the connection. -/
theorem empty_batch_reports_success :
    (∀ (connOk : Bool) (table : List CombinedRecord) (ct : Nat) (code : CodeEvent),
      save_combined_data_centered_conveyor connOk table
        { conveyor_time := ct, code_data := code,
          equipment_data := [("status_records", [])] } = .ok (true, table)) ∧
    (∀ (connOk : Bool)
      (apply : List CombinedRecord → CombinedRecord → List CombinedRecord)
      (table : List CombinedRecord),
      execute_many connOk apply table [] = (true, table)) := by
  constructor
  · intro connOk table ct code
    rfl
  · intro connOk apply table
    rfl

/-- C3 counterexample: updating the cursor with 0.5 s (500000 µs) durably
stores 0 s — the `strftime('%Y-%m-%d %H:%M:%S')` second-truncated
rendering — while the in-memory cursor is set to the full-precision
0.5 s.  The in-memory cursor has moved ahead of the durable cursor, so
the claimed never-ahead/lockstep property fails at sub-second
granularity. -/
theorem update_memory_ahead_of_durable :
    update_last_processed_time (fun _ => true) (some 0) (some 0) 500000 =
      (true, some 500000, some 0) ∧ (0 : Nat) < 500000 :=
  ⟨rfl, by decide⟩

/-- C3 (amended): `update_last_processed_time` persists first — writing
the `strftime('%Y-%m-%d %H:%M:%S')` second-truncated rendering of the new
timestamp — and only on success sets the in-memory cursor, to the
full-precision value; on failure it returns `False` with both the
in-memory and durable cursors unchanged.  After a successful update the
durable cursor is exactly the second-truncation of the in-memory one, so
memory can run ahead of the store, but by less than one second. -/
theorem update_cursor_durable_first (persistOk : Nat → Bool)
    (mem db : Option Nat) (new_time : Nat) :
    update_last_processed_time persistOk mem db new_time =
      (if persistOk (truncToSec new_time)
       then (true, some new_time, some (truncToSec new_time))
       else (false, mem, db)) ∧
    truncToSec new_time ≤ new_time ∧
    new_time < truncToSec new_time + usecPerSec := by
  refine ⟨?_, ?_, ?_⟩
  · simp only [update_last_processed_time, persist_last_processed_time]
    by_cases h : persistOk (truncToSec new_time) = true <;> simp [h]
  · simp only [truncToSec, timeStr, usecPerSec]
    omega
  · simp only [truncToSec, timeStr, usecPerSec]
    omega

/-! ### C4: duplicate-ignore idempotence of the writer -/

/-- `table` already holds a row with key `k`. -/
def containsKey (table : List CombinedRecord) (k : Nat × Nat × Nat) : Bool :=
  table.any (fun x => x.key = k)

lemma containsKey_insertIgnore (table : List CombinedRecord) (r : CombinedRecord)
    (k : Nat × Nat × Nat) (h : containsKey table k) :
    containsKey (insertIgnore table r) k := by
  unfold insertIgnore
  split
  · exact h
  · unfold containsKey at h ⊢
    simp only [List.any_append, Bool.or_eq_true]
    exact Or.inl h

lemma containsKey_insertIgnore_self (table : List CombinedRecord) (r : CombinedRecord) :
    containsKey (insertIgnore table r) r.key := by
  unfold insertIgnore
  split
  · assumption
  · unfold containsKey
    simp

lemma insertIgnore_of_containsKey (table : List CombinedRecord) (r : CombinedRecord)
    (h : containsKey table r.key) : insertIgnore table r = table := by
  unfold insertIgnore
  simp only [containsKey] at h
  simp [h]

lemma containsKey_foldl_insertIgnore (rs : List CombinedRecord)
    (table : List CombinedRecord) (k : Nat × Nat × Nat) (h : containsKey table k) :
    containsKey (rs.foldl insertIgnore table) k := by
  induction rs generalizing table with
  | nil => exact h
  | cons a rs ih => exact ih _ (containsKey_insertIgnore _ _ _ h)


lemma containsKey_foldl_insertIgnore_all (rs : List CombinedRecord) :
    ∀ table : List CombinedRecord, ∀ r ∈ rs,
      containsKey (rs.foldl insertIgnore table) r.key := by
  induction rs with
  | nil => intro table r hr; cases hr
  | cons a rs ih =>
    intro table r hr
    rcases List.mem_cons.mp hr with rfl | hmem
    · simp only [List.foldl_cons]
      exact containsKey_foldl_insertIgnore _ _ _ (containsKey_insertIgnore_self _ _)
    · simp only [List.foldl_cons]
      exact ih _ r hmem

lemma foldl_insertIgnore_noop (rs : List CombinedRecord) (table : List CombinedRecord)
    (h : ∀ r ∈ rs, containsKey table r.key) : rs.foldl insertIgnore table = table := by
  induction rs with
  | nil => rfl
  | cons a rs ih =>
    have ha : insertIgnore table a = table :=
      insertIgnore_of_containsKey _ _ (h a (List.mem_cons_self a rs))
    simp only [List.foldl_cons, ha]
    exact ih (fun r hr => h r (List.mem_cons_of_mem a hr))

lemma dictLookup_head (k : String) (v : List EquipmentRecord)
    (rest : List (String × List EquipmentRecord)) :
    dictLookup k ((k, v) :: rest) = some v := by
  simp [dictLookup]

/-- C4: running the combined-record writer twice with an identical batch
leaves the combined-record store with exactly the same rows as running it
once — the `INSERT IGNORE` silently skips any record whose unique
(three-timestamp) key already exists, so the second run is a no-op. -/
theorem writer_duplicate_ignore_idempotent (table : List CombinedRecord)
    (ct : Nat) (code : CodeEvent) (recs : List EquipmentRecord) :
    ∃ table₁ : List CombinedRecord,
      save_combined_data_centered_conveyor true table
        { conveyor_time := ct, code_data := code,
          equipment_data := [("status_records", recs)] } = .ok (true, table₁) ∧
      save_combined_data_centered_conveyor true table₁
        { conveyor_time := ct, code_data := code,
          equipment_data := [("status_records", recs)] } = .ok (true, table₁) := by
  cases recs with
  | nil =>
    exact ⟨table, by simp [save_combined_data_centered_conveyor, dictLookup_head], by
      simp [save_combined_data_centered_conveyor, dictLookup_head]⟩
  | cons a l =>
    refine ⟨((a :: l).map (mkCombinedRecord ct code)).foldl insertIgnore table, ?_, ?_⟩
    · simp [save_combined_data_centered_conveyor, dictLookup_head, execute_many]
    · simp only [save_combined_data_centered_conveyor, dictLookup_head, execute_many,
        List.map_cons, List.isEmpty_cons, Bool.false_eq_true, if_false, if_true]
      rw [← List.map_cons (mkCombinedRecord ct code) a l,
        foldl_insertIgnore_noop _ _ (containsKey_foldl_insertIgnore_all _ table)]

/-- C8: `initialize_from_existing_data` under successful persistence.  When
the held cursor exceeds the trigger-derived maximum of the combined store,
the lower computed value is cached and returned, and persisted (in the
second-truncated rendering the cursor store's upsert always writes);
whenever a trigger-derived maximum exists it becomes the cursor; with
none, the code-derived maximum is the fallback; with neither, nothing is
returned and the cursor fields are left untouched (in the startup
call-site context, where the cursor is unset, it therefore stays
unset). -/
theorem initialize_from_existing_data_spec (pOk : Nat → Bool) (mem db : Option Nat)
    (combined : List CombinedRecord) (hp : ∀ t, pOk t = true) :
    (∀ c m, mem = some c →
      get_last_processed_time_from_conveyor_data combined = some m → m < c →
      initialize_from_existing_data pOk mem db combined =
        (some m, some m, some (truncToSec m))) ∧
    (∀ m, get_last_processed_time_from_conveyor_data combined = some m →
      initialize_from_existing_data pOk mem db combined =
        (some m, some m, some (truncToSec m))) ∧
    (get_last_processed_time_from_conveyor_data combined = none →
      ∀ k, get_last_processed_time_from_code_data combined = some k →
      initialize_from_existing_data pOk mem db combined =
        (some k, some k, some (truncToSec k))) ∧
    (get_last_processed_time_from_conveyor_data combined = none →
      get_last_processed_time_from_code_data combined = none →
      initialize_from_existing_data pOk mem db combined = (none, mem, db)) := by
  have hB : ∀ m, get_last_processed_time_from_conveyor_data combined = some m →
      initialize_from_existing_data pOk mem db combined =
        (some m, some m, some (truncToSec m)) := by
    intro m hm
    cases mem with
    | none => simp [initialize_from_existing_data, hm, persist_last_processed_time, hp]
    | some c =>
      by_cases hlt : m < c <;>
        simp [initialize_from_existing_data, hm, hlt, persist_last_processed_time, hp]
  refine ⟨fun c m _ hm _ => hB m hm, hB, ?_, ?_⟩
  · intro h1 k h2
    cases mem with
    | none =>
      simp [initialize_from_existing_data, h1, h2, persist_last_processed_time, hp]
    | some c =>
      simp [initialize_from_existing_data, h1, h2, persist_last_processed_time, hp]
  · intro h1 h2
    cases mem with
    | none => simp [initialize_from_existing_data, h1, h2]
    | some c => simp [initialize_from_existing_data, h1, h2]

/-- A one-row combined table whose trigger-derived maximum (50 s) lies
below the held cursor (100 s) in the witness below. -/
def witnessRow : CombinedRecord :=
  { scanner_ts := 40000000, equipment_ts := 45000000, conveyor_ts := 50000000,
    status := .intv 1,
    process_status := "start_phase_1", process_complete_status := "start_phase_1",
    product_code := "P1", code_description := "", operator_id := "OP",
    work_order := "WO" }

/-- Witness for C8: a cursor of 100 s ahead of a trigger-derived maximum
of 50 s is reset to 50 s in the returned value, the cache and the store
(50 s is already whole-second, so its truncated rendering is itself). -/
theorem initialize_from_existing_data_spec_witness :
    get_last_processed_time_from_conveyor_data [witnessRow] = some 50000000 ∧
    initialize_from_existing_data (fun _ => true)
      (some 100000000) (some 100000000) [witnessRow] =
      (some 50000000, some 50000000, some 50000000) :=
  ⟨rfl, (initialize_from_existing_data_spec (fun _ => true) (some 100000000)
    (some 100000000) [witnessRow] (fun _ => rfl)).1 100000000 50000000 rfl rfl
    (by decide)⟩

/-- C9: the cursor store's read path parses a stored textual cursor with
the full-seconds format first and the fractional-seconds format second
(witnessed on concrete strings each format accepts or rejects), and when
neither parses the error escapes `ProcessingSystem` construction — fatal
to startup, never replaced by a default cursor. -/
theorem malformed_cursor_is_fatal :
    (∀ s : String, get_last_processed_time (some (.str s)) =
        match parseFullSeconds s with
        | some t => .ok (some t)
        | none =>
          match parseFracSeconds s with
          | some t => .ok (some t)
          | none => .error "ValueError: unparseable last_processed_time") ∧
    parseFullSeconds "2024-01-02 03:04:05" = some (encodeInstant 2024 1 2 3 4 5) ∧
    parseFullSeconds "2024-01-02 03:04:05.5" = none ∧
    parseFracSeconds "2024-01-02 03:04:05.5" =
      some (encodeInstant 2024 1 2 3 4 5 + 500000) ∧
    (∀ s : String, parseFullSeconds s = none → parseFracSeconds s = none →
      processing_system_init (some (.str s)) =
        .error "ValueError: unparseable last_processed_time") := by
  refine ⟨fun s => rfl, rfl, rfl, rfl, ?_⟩
  intro s h1 h2
  simp [processing_system_init, get_last_processed_time, h1, h2]

/-- Witness for C9: the string `"not-a-time"` parses under neither format
and aborts startup with the surfaced error. -/
theorem malformed_cursor_is_fatal_witness :
    parseFullSeconds "not-a-time" = none ∧ parseFracSeconds "not-a-time" = none ∧
    processing_system_init (some (.str "not-a-time")) =
      .error "ValueError: unparseable last_processed_time" :=
  ⟨rfl, rfl, malformed_cursor_is_fatal.2.2.2.2 "not-a-time" rfl rfl⟩


/-! ### Driver step characterization

`dictLookup "v24_records"` can never succeed on the fetcher's dict (whose
single key is `'status_records'`), so every code-found branch raises; this
is established once and reused below. -/

lemma handleCodeFound_eq (env : Env) (st : ProcState) (conveyor_time : Nat)
    (code_data : CodeEvent) (end_time : Nat) :
    handleCodeFound env st conveyor_time code_data end_time =
      .error ("KeyError: v24_records",
        { st with warned := st.warned.filter (fun ts => ts ≠ timeStr conveyor_time) }) := by
  rfl

lemma process_individual_eq (env : Env) (st : ProcState) (reqs : List Nat) (i : Nat) :
    process_individual_conveyor_request env st reqs i =
      match search_corresponding_code env.scanner (eventTimeOf reqs i) (nextTimeOf reqs i) with
      | none => .ok (handleNoCode (validatePrev st reqs i) (eventTimeOf reqs i))
      | some _ => .error ("KeyError: v24_records",
          { validatePrev st reqs i with
            warned := (validatePrev st reqs i).warned.filter
              (fun ts => ts ≠ timeStr (eventTimeOf reqs i)) }) := by
  unfold process_individual_conveyor_request
  cases hs : search_corresponding_code env.scanner (eventTimeOf reqs i) (nextTimeOf reqs i) with
  | none => rfl
  | some cd => rfl

lemma validatePrev_fields (st : ProcState) (reqs : List Nat) (i : Nat) :
    (validatePrev st reqs i).cursor_mem = st.cursor_mem ∧
    (validatePrev st reqs i).cursor_db = st.cursor_db ∧
    (validatePrev st reqs i).combined = st.combined ∧
    (validatePrev st reqs i).warned = st.warned := by
  unfold validatePrev
  split
  · split <;> exact ⟨rfl, rfl, rfl, rfl⟩
  · exact ⟨rfl, rfl, rfl, rfl⟩

lemma handleNoCode_fields (st : ProcState) (conveyor_time : Nat) :
    (handleNoCode st conveyor_time).cursor_mem = st.cursor_mem ∧
    (handleNoCode st conveyor_time).cursor_db = st.cursor_db ∧
    (handleNoCode st conveyor_time).combined = st.combined := by
  unfold handleNoCode
  split <;> exact ⟨rfl, rfl, rfl⟩

/-- Any single event-processing outcome, success or raised exception,
leaves the cursors and the combined table exactly as they were. -/
lemma process_individual_preserves (env : Env) (st : ProcState) (reqs : List Nat) (i : Nat) :
    (∀ st', process_individual_conveyor_request env st reqs i = .ok st' →
      st'.cursor_mem = st.cursor_mem ∧ st'.cursor_db = st.cursor_db ∧
      st'.combined = st.combined) ∧
    (∀ e st', process_individual_conveyor_request env st reqs i = .error (e, st') →
      st'.cursor_mem = st.cursor_mem ∧ st'.cursor_db = st.cursor_db ∧
      st'.combined = st.combined) := by
  have hv := validatePrev_fields st reqs i
  rw [process_individual_eq]
  cases hs : search_corresponding_code env.scanner (eventTimeOf reqs i) (nextTimeOf reqs i) with
  | none =>
    refine ⟨?_, ?_⟩
    · intro st' h
      cases h
      have hn := handleNoCode_fields (validatePrev st reqs i) (eventTimeOf reqs i)
      exact ⟨hn.1.trans hv.1, hn.2.1.trans hv.2.1, hn.2.2.trans hv.2.2.1⟩
    · intro e st' h
      cases h
  | some cd =>
    refine ⟨?_, ?_⟩
    · intro st' h
      cases h
    · intro e st' h
      cases h
      exact ⟨hv.1, hv.2.1, hv.2.2.1⟩

lemma cycleStep_false (env : Env) (reqs : List Nat) (st : ProcState) (i : Nat) :
    cycleStep env reqs (st, false) i = (st, false) := rfl

lemma cycleStep_true (env : Env) (reqs : List Nat) (st : ProcState) (i : Nat) :
    cycleStep env reqs (st, true) i =
      match process_individual_conveyor_request env st reqs i with
      | .ok st' => (st', true)
      | .error (_, st') => ({ st' with log := st'.log ++ [.errCycleAborted] }, false) := rfl

lemma cycleStep_fold_preserves (env : Env) (reqs : List Nat) :
    ∀ (idxs : List Nat) (st : ProcState) (b : Bool),
      ((idxs.foldl (cycleStep env reqs) (st, b)).1).cursor_mem = st.cursor_mem ∧
      ((idxs.foldl (cycleStep env reqs) (st, b)).1).cursor_db = st.cursor_db ∧
      ((idxs.foldl (cycleStep env reqs) (st, b)).1).combined = st.combined := by
  intro idxs
  induction idxs with
  | nil => intro st b; exact ⟨rfl, rfl, rfl⟩
  | cons i idxs ih =>
    intro st b
    rw [List.foldl_cons]
    cases b with
    | false =>
      rw [cycleStep_false]
      exact ih st false
    | true =>
      rw [cycleStep_true]
      cases h : process_individual_conveyor_request env st reqs i with
      | ok st' =>
        have hp := (process_individual_preserves env st reqs i).1 st' h
        have hfold := ih st' true
        exact ⟨hfold.1.trans hp.1, hfold.2.1.trans hp.2.1, hfold.2.2.trans hp.2.2⟩
      | error p =>
        obtain ⟨e, st'⟩ := p
        have hp := (process_individual_preserves env st reqs i).2 e st' h
        have hfold := ih { st' with log := st'.log ++ [.errCycleAborted] } false
        exact ⟨hfold.1.trans hp.1, hfold.2.1.trans hp.2.1, hfold.2.2.trans hp.2.2⟩

/-- A poll cycle leaves the cursors and the combined table unchanged (the
only code path that could advance them first indexes the missing
`'v24_records'` key and raises). -/
lemma process_cycle_preserves (env : Env) (st : ProcState) :
    (process_cycle env st).cursor_mem = st.cursor_mem ∧
    (process_cycle env st).cursor_db = st.cursor_db ∧
    (process_cycle env st).combined = st.combined :=
  cycleStep_fold_preserves env (get_new_conveyor_requests env st)
    (List.range (get_new_conveyor_requests env st).length) st true

/-- C2: with in-memory and durable cursors synced at `c`, the driver's
fetch keeps only trigger events with timestamp `≥ c`, hands them over in
ascending timestamp order, and after the whole poll cycle the persisted
cursor is still defined and `≥ c` — the cursor is monotonically
non-decreasing across any poll cycle (reinitialization is a separate
entry point not invoked here). -/
theorem cursor_monotone_per_cycle (env : Env) (st : ProcState) (c : Nat)
    (h1 : st.cursor_mem = some c) (h2 : st.cursor_db = some c) :
    (∀ t ∈ get_new_conveyor_requests env st, c ≤ t) ∧
    List.Sorted (· ≤ ·) (get_new_conveyor_requests env st) ∧
    ∃ d, (process_cycle env st).cursor_db = some d ∧ c ≤ d := by
  refine ⟨?_, ?_, c, ?_, le_refl c⟩
  · intro t ht
    unfold get_new_conveyor_requests at ht
    cases hf : env.fetchOk with
    | false => rw [hf] at ht; cases ht
    | true =>
      rw [hf] at ht
      simp only [if_true] at ht
      rw [h1] at ht
      have := List.mem_filter.mp ht
      simpa using this.2
  · unfold get_new_conveyor_requests
    cases hf : env.fetchOk with
    | false => simp
    | true =>
      simp only [if_true]
      rw [h1]
      exact List.Pairwise.filter _ (List.sorted_insertionSort _ _)
  · rw [(process_cycle_preserves env st).2.1, h2]

/-- A minimal external world for the cycle-level witnesses. -/
def envEmpty : Env :=
  { conveyor := [], scanner := [], equipment := [], today := 0,
    fetchOk := true, connOk := true, persistOk := fun _ => true }

/-- A driver state with both cursors synced at 5 seconds. -/
def stSynced : ProcState :=
  { cursor_mem := some 5000000, cursor_db := some 5000000, combined := [],
    warned := [], log := [] }

/-- Witness for C2 at a concrete environment and synced cursor. -/
theorem cursor_monotone_per_cycle_witness :
    ∃ d, (process_cycle envEmpty stSynced).cursor_db = some d ∧ 5000000 ≤ d :=
  (cursor_monotone_per_cycle envEmpty stSynced 5000000 rfl rfl).2.2

/-- The world of claim C1's scenario: one trigger at 1000 s, a code event
5 s later, and no equipment samples in the window. -/
def envNoSamples : Env :=
  { conveyor := [1000000000],
    scanner := [{ ts := 1005000000, product_code := "P1", operator_id := "OP",
                  work_order := "WO" }],
    equipment := [], today := dayOf 1000000000, fetchOk := true, connOk := true,
    persistOk := fun _ => true }

/-- The driver state before the cycle in claim C1's scenario: cursor at
999 s, before the trigger. -/
def stNoSamples : ProcState :=
  { cursor_mem := some 999000000, cursor_db := some 999000000, combined := [],
    warned := [], log := [] }

/-- C1 evidence: for the trigger at 1000 s a code event is matched and the
equipment-sample fetch returns zero samples, yet the driver raises
`KeyError: 'v24_records'` (the processor indexes a key the fetcher, which
returns `'status_records'`, never produces), so the cycle aborts with
nothing persisted and the cursor NOT advanced — where the claim and the
spec require the cursor to advance to 1000 s. -/
theorem matched_event_no_samples_raises_keyerror :
    search_corresponding_code envNoSamples.scanner 1000000000 none =
      some { ts := 1005000000, product_code := "P1", operator_id := "OP",
             work_order := "WO" } ∧
    get_equipment_data_by_time_range envNoSamples.equipment 1000000000
      (1000000000 + tenMinutes) = [("status_records", [])] ∧
    process_individual_conveyor_request envNoSamples stNoSamples [1000000000] 0 =
      .error ("KeyError: v24_records", stNoSamples) ∧
    (process_cycle envNoSamples stNoSamples).cursor_db = some 999000000 ∧
    (process_cycle envNoSamples stNoSamples).combined = [] := by
  refine ⟨rfl, rfl, rfl, ?_, ?_⟩ <;> rfl

/-- Number of no-code warnings for the trigger at `t` in a log. -/
def warnNoCodeCount (t : Nat) (log : List LogEntry) : Nat :=
  (log.filter (fun e => e == LogEntry.warnNoCode t)).length

/-- The world of the C7 counterexample: triggers at 1000.2 s and 1000.5 s
(the same whole second), and a single code event at 1200 s — inside the
second trigger's 10-minute window but outside the first trigger's window
`(1000.2 s, 1000.5 s]`. -/
def envCollide : Env :=
  { conveyor := [1000200000, 1000500000],
    scanner := [{ ts := 1200000000, product_code := "P2", operator_id := "OP",
                  work_order := "WO" }],
    equipment := [], today := dayOf 1000200000, fetchOk := true, connOk := true,
    persistOk := fun _ => true }

/-- Driver state before the first cycle: cursor at 1000 s. -/
def stCollide : ProcState :=
  { cursor_mem := some 1000000000, cursor_db := some 1000000000, combined := [],
    warned := [], log := [] }

/-- C7 counterexample: the trigger at 1000.2 s has no code event in its
window `(1000.2 s, 1000.5 s]` whenever it is processed, yet across two
poll cycles of one driver instance its no-code warning is logged twice.
The de-duplication set is keyed by the second-truncated timestamp string,
and when the same-second trigger at 1000.5 s finds its code the entry is
removed again (before that event's processing then aborts without
advancing the cursor), so the next cycle re-warns for 1000.2 s. -/
theorem no_code_warning_logged_twice :
    search_corresponding_code envCollide.scanner 1000200000 (some 1000500000) = none ∧
    warnNoCodeCount 1000200000
      (process_cycle envCollide (process_cycle envCollide stCollide)).log = 2 ∧
    ¬ warnNoCodeCount 1000200000
      (process_cycle envCollide (process_cycle envCollide stCollide)).log ≤ 1 := by
  have h2 : warnNoCodeCount 1000200000
      (process_cycle envCollide (process_cycle envCollide stCollide)).log = 2 := by rfl
  exact ⟨rfl, h2, by rw [h2]; decide⟩

/-! ### The amended C7 property

A trace of per-event processing steps of one driver instance (any
interleaving across poll cycles; `process_new_conveyor_requests` invokes
`process_individual_conveyor_request` in exactly this way, an exception
keeping the state mutated so far). -/

/-- One invocation of the per-event processor. -/
structure DriverStep where
  env : Env
  reqs : List Nat
  index : Nat

/-- Apply one per-event step, keeping the carried state on an exception
(as `main.py`'s cycle-level handler does). -/
def runStep (env : Env) (reqs : List Nat) (i : Nat) (st : ProcState) : ProcState :=
  match process_individual_conveyor_request env st reqs i with
  | .ok st' => st'
  | .error (_, st') => st'

/-- Run a list of per-event steps. -/
def runSteps (st : ProcState) (steps : List DriverStep) : ProcState :=
  steps.foldl (fun st s => runStep s.env s.reqs s.index st) st

/-- The trigger timestamp a step processes. -/
def stepEventTime (s : DriverStep) : Nat := eventTimeOf s.reqs s.index

/-- The code-matcher outcome of a step (a function of the step alone). -/
def stepSearch (s : DriverStep) : Option CodeEvent :=
  search_corresponding_code s.env.scanner (stepEventTime s) (nextTimeOf s.reqs s.index)

lemma runSteps_cons (st : ProcState) (s : DriverStep) (steps : List DriverStep) :
    runSteps st (s :: steps) = runSteps (runStep s.env s.reqs s.index st) steps := rfl

lemma runStep_eq (env : Env) (reqs : List Nat) (i : Nat) (st : ProcState) :
    runStep env reqs i st =
      match stepSearch ⟨env, reqs, i⟩ with
      | none => handleNoCode (validatePrev st reqs i) (eventTimeOf reqs i)
      | some _ =>
        { validatePrev st reqs i with
          warned := (validatePrev st reqs i).warned.filter
            (fun ts => ts ≠ timeStr (eventTimeOf reqs i)) } := by
  unfold runStep
  rw [process_individual_eq]
  unfold stepSearch stepEventTime
  cases h : search_corresponding_code env.scanner (eventTimeOf reqs i) (nextTimeOf reqs i) <;> rfl

lemma warnNoCodeCount_append (t : Nat) (l1 l2 : List LogEntry) :
    warnNoCodeCount t (l1 ++ l2) = warnNoCodeCount t l1 + warnNoCodeCount t l2 := by
  simp [warnNoCodeCount, List.filter_append]

lemma warnNoCodeCount_warnIncomplete (t p n : Nat) :
    warnNoCodeCount t [LogEntry.warnIncomplete p n] = 0 := by
  simp [warnNoCodeCount]

lemma warnNoCodeCount_warnNoCode (t ct : Nat) :
    warnNoCodeCount t [LogEntry.warnNoCode ct] = if ct = t then 1 else 0 := by
  by_cases h : ct = t <;> simp [warnNoCodeCount, h]

lemma warnNoCodeCount_validatePrev (t : Nat) (st : ProcState) (reqs : List Nat) (i : Nat) :
    warnNoCodeCount t (validatePrev st reqs i).log = warnNoCodeCount t st.log := by
  unfold validatePrev
  split
  · split
    · rfl
    · simp [warnNoCodeCount_append, warnNoCodeCount_warnIncomplete]
  · rfl

lemma runStep_none_mem (env : Env) (reqs : List Nat) (i : Nat) (st : ProcState)
    (hs : stepSearch ⟨env, reqs, i⟩ = none)
    (hm : timeStr (eventTimeOf reqs i) ∈ st.warned) :
    (runStep env reqs i st).warned = st.warned ∧
    ∀ t, warnNoCodeCount t (runStep env reqs i st).log = warnNoCodeCount t st.log := by
  rw [runStep_eq, hs]
  unfold handleNoCode
  have hw := (validatePrev_fields st reqs i).2.2.2
  rw [hw, if_pos hm]
  exact ⟨hw, fun t => warnNoCodeCount_validatePrev t st reqs i⟩

lemma runStep_none_notmem (env : Env) (reqs : List Nat) (i : Nat) (st : ProcState)
    (hs : stepSearch ⟨env, reqs, i⟩ = none)
    (hm : timeStr (eventTimeOf reqs i) ∉ st.warned) :
    (runStep env reqs i st).warned = st.warned ++ [timeStr (eventTimeOf reqs i)] ∧
    ∀ t, warnNoCodeCount t (runStep env reqs i st).log =
      warnNoCodeCount t st.log + (if eventTimeOf reqs i = t then 1 else 0) := by
  rw [runStep_eq, hs]
  unfold handleNoCode
  have hw := (validatePrev_fields st reqs i).2.2.2
  rw [hw, if_neg hm]
  refine ⟨rfl, fun t => ?_⟩
  rw [warnNoCodeCount_append, warnNoCodeCount_validatePrev,
    warnNoCodeCount_warnNoCode]

lemma runStep_some (env : Env) (reqs : List Nat) (i : Nat) (st : ProcState)
    (cd : CodeEvent) (hs : stepSearch ⟨env, reqs, i⟩ = some cd) :
    (runStep env reqs i st).warned =
      st.warned.filter (fun ts => ts ≠ timeStr (eventTimeOf reqs i)) ∧
    ∀ t, warnNoCodeCount t (runStep env reqs i st).log = warnNoCodeCount t st.log := by
  rw [runStep_eq, hs]
  have hw := (validatePrev_fields st reqs i).2.2.2
  exact ⟨congrArg (List.filter _) hw, fun t => warnNoCodeCount_validatePrev t st reqs i⟩

lemma warn_once_invariant (A : Nat) :
    ∀ (steps : List DriverStep) (st : ProcState),
      (∀ s ∈ steps, timeStr (stepEventTime s) = timeStr A → stepSearch s = none) →
      warnNoCodeCount A st.log ≤ 1 →
      (warnNoCodeCount A st.log = 1 → timeStr A ∈ st.warned) →
      warnNoCodeCount A (runSteps st steps).log ≤ 1 := by
  intro steps
  induction steps with
  | nil => intro st _ h1 _; exact h1
  | cons s steps ih =>
    intro st hsteps h1 h2
    obtain ⟨env, reqs, i⟩ := s
    rw [runSteps_cons]
    have hhead := hsteps _ (List.mem_cons_self _ _)
    have htail := fun s hs => hsteps s (List.mem_cons_of_mem _ hs)
    cases hs : stepSearch ⟨env, reqs, i⟩ with
    | some cd =>
      have hr := runStep_some env reqs i st cd hs
      refine ih _ htail ?_ ?_
      · rw [hr.2 A]; exact h1
      · intro hc
        rw [hr.2 A] at hc
        have hmem := h2 hc
        rw [hr.1]
        refine List.mem_filter.mpr ⟨hmem, ?_⟩
        have hne : timeStr (stepEventTime ⟨env, reqs, i⟩) ≠ timeStr A := by
          intro heq
          rw [hhead heq] at hs
          cases hs
        exact decide_eq_true fun heq => hne heq.symm
    | none =>
      by_cases hm : timeStr (eventTimeOf reqs i) ∈ st.warned
      · have hr := runStep_none_mem env reqs i st hs hm
        refine ih _ htail ?_ ?_
        · rw [hr.2 A]; exact h1
        · intro hc
          rw [hr.2 A] at hc
          rw [hr.1]
          exact h2 hc
      · have hr := runStep_none_notmem env reqs i st hs hm
        by_cases hct : eventTimeOf reqs i = A
        · have hzero : warnNoCodeCount A st.log = 0 := by
            rcases Nat.lt_or_ge (warnNoCodeCount A st.log) 1 with h | h
            · omega
            · exfalso
              have hone : warnNoCodeCount A st.log = 1 := le_antisymm h1 h
              have := h2 hone
              rw [← hct] at this
              exact hm this
          refine ih _ htail ?_ ?_
          · rw [hr.2 A, hzero, hct]; simp
          · intro _
            rw [hr.1, hct]
            exact List.mem_append_right _ (List.mem_singleton_self _)
        · refine ih _ htail ?_ ?_
          · rw [hr.2 A, if_neg hct]; simpa using h1
          · intro hc
            rw [hr.2 A, if_neg hct] at hc
            simp only [Nat.add_zero] at hc
            rw [hr.1]
            exact List.mem_append_left _ (h2 hc)

/-- C7 (amended): a trigger event whose code search comes back empty is
skipped without touching either cursor or the combined table, and over any
sequence of per-event processing steps of one driver instance the no-code
warning for a trigger timestamp `A` is logged at most once — provided no
step whose trigger shares `A`'s second-truncated timestamp string ever
finds a code (a later code match for a same-second trigger clears the
de-duplication entry and allows the warning to repeat, as the
counterexample shows). -/
theorem no_code_skip_and_warn_at_most_once :
    (∀ (env : Env) (st : ProcState) (reqs : List Nat) (i : Nat),
      search_corresponding_code env.scanner (eventTimeOf reqs i) (nextTimeOf reqs i) = none →
      ∃ st', process_individual_conveyor_request env st reqs i = .ok st' ∧
        st'.cursor_mem = st.cursor_mem ∧ st'.cursor_db = st.cursor_db ∧
        st'.combined = st.combined) ∧
    (∀ (steps : List DriverStep) (st : ProcState) (A : Nat),
      (∀ s ∈ steps, timeStr (stepEventTime s) = timeStr A → stepSearch s = none) →
      timeStr A ∉ st.warned → warnNoCodeCount A st.log = 0 →
      warnNoCodeCount A (runSteps st steps).log ≤ 1) := by
  constructor
  · intro env st reqs i h
    rw [process_individual_eq, h]
    have hv := validatePrev_fields st reqs i
    have hn := handleNoCode_fields (validatePrev st reqs i) (eventTimeOf reqs i)
    exact ⟨_, rfl, hn.1.trans hv.1, hn.2.1.trans hv.2.1, hn.2.2.trans hv.2.2.1⟩
  · intro steps st A hsteps hmem hzero
    refine warn_once_invariant A steps st hsteps (by omega) ?_
    intro hc
    rw [hzero] at hc
    cases hc

/-- Witness for the amended C7 theorem: one concrete no-code step warns at
most once. -/
theorem no_code_skip_and_warn_at_most_once_witness :
    warnNoCodeCount 5000000
      (runSteps { cursor_mem := none, cursor_db := none, combined := [],
                  warned := [], log := [] }
        [⟨envEmpty, [5000000], 0⟩]).log ≤ 1 := by
  refine no_code_skip_and_warn_at_most_once.2 [⟨envEmpty, [5000000], 0⟩] _ 5000000 ?_ ?_ ?_
  · intro s hs _
    rcases List.mem_singleton.mp hs with rfl
    rfl
  · simp
  · rfl
